import Mathlib

/-!
Shallow embedding of the mTutor student-engagement dashboard
(`src/app.py`) and proofs about its generator and filter/aggregation
pipeline.

Conventions of the embedding:

* A pandas `DataFrame` of engagement rows is a `List EngagementRecord`.
* Calendar dates are day numbers in `ℤ` (day-level granularity, as in the
  source, where every timestamp has a zero time component).  `dt.date.today()`
  is an explicit parameter `today`.
* Floating-point draws from `numpy` are modelled as rationals `ℚ`.  A pandas
  `NaN` result (e.g. `median` of an empty series) is modelled as `none` in
  `Option ℚ`.
* `np.random.default_rng(seed)` is modelled by a deterministic congruential
  stream `Rng` consumed in exactly the order the source consumes its
  generator (date outer loop, course inner loop, then per-record draws).
  `rng.integers(low, high)` raises on an empty range `low >= high`; this is
  modelled by `Option`, with `none` standing for the raised `ValueError`.
  `rng.choice(n, size, replace=False)` draws `size` distinct elements of
  `[0, n)` and raises when `size > n`.
-/

/-- One row of the generated table (`load_dummy_data`'s record dict). -/
structure EngagementRecord where
  date : ℤ
  course : String
  student_id : ℕ
  session_minutes : ℚ
  quiz_score : ℚ
  completed : Bool
deriving Repr, DecidableEq

/-- Modulus of the congruential state, 2^64. -/
def rngMod : ℕ := 18446744073709551616

/-- Denominator used to turn a state word into a rational in `[0,1)`,
modelling the 53-bit mantissa of a numpy double. -/
def rngDen : ℕ := 9007199254740992

/-- Deterministic model of a `numpy.random.Generator` instance: the whole
stream is a pure function of the state word. -/
structure Rng where
  state : ℕ
deriving Repr, DecidableEq

/-- Model of `np.random.default_rng(seed)`. -/
def rngInit (seed : ℕ) : Rng :=
  ⟨(seed * 6364136223846793005 + 1442695040888963407) % rngMod⟩

/-- Advance the stream one word. -/
def Rng.next (r : Rng) : ℕ × Rng :=
  let s := (r.state * 6364136223846793005 + 1442695040888963407) % rngMod
  (s, ⟨s⟩)

/-- Model of `rng.integers(low, high)`: one integer uniform on `[low, high)`; numpy
raises `ValueError` (here `none`) when the range is empty. -/
def Rng.integers (lo hi : ℕ) (r : Rng) : Option (ℕ × Rng) :=
  if lo < hi then
    let (x, r1) := r.next
    some (lo + x % (hi - lo), r1)
  else none

/-- Model of `rng.uniform(a, b)`: one rational in `[a, b)` (when `a < b`). -/
def Rng.uniform (a b : ℚ) (r : Rng) : ℚ × Rng :=
  let (x, r1) := r.next
  (a + (b - a) * ((x % rngDen : ℕ) : ℚ) / (rngDen : ℚ), r1)

/-- Model of `rng.random()`: one rational in `[0, 1)`. -/
def Rng.random (r : Rng) : ℚ × Rng :=
  let (x, r1) := r.next
  (((x % rngDen : ℕ) : ℚ) / (rngDen : ℚ), r1)

/-- Draw `k` distinct elements from `pool`, removing each chosen element. -/
def pickDistinct : ℕ → List ℕ → Rng → List ℕ × Rng
  | 0, _, r => ([], r)
  | Nat.succ k, pool, r =>
    let (x, r1) := r.next
    let chosen := pool.getD (x % pool.length) 0
    let (rest, r2) := pickDistinct k (pool.erase chosen) r1
    (chosen :: rest, r2)

/-- Model of `rng.choice(np.arange(n), size=k, replace=False)`: `k` distinct ids from
`[0, n)`; numpy raises (here `none`) when `k > n`. -/
def Rng.choice (n k : ℕ) (r : Rng) : Option (List ℕ × Rng) :=
  if k ≤ n then some (pickDistinct k (List.range n) r) else none

/-- Decimal rendering of a natural number, as Python's `f"{i}"` does. -/
def natDecimal (n : ℕ) : String :=
  if n = 0 then "0" else ⟨((Nat.digits 10 n).map Nat.digitChar).reverse⟩

/-- The generated course labels `Course‑1 .. Course‑N` (source line 38). -/
def courseList (courses : ℕ) : List String :=
  (List.range courses).map (fun i => "Course‑" ++ natDecimal (i + 1))

/-- The contiguous day range of `days` days ending at `today`
(source lines 36–37). -/
def dateList (days : ℕ) (today : ℤ) : List ℤ :=
  (List.range days).map (fun i : ℕ => today - ((days : ℤ) - 1) + (i : ℤ))

/-- The per-student draws of `load_dummy_data`'s inner loop
(source lines 47–59): session minutes, quiz score, completion flag. -/
def genStudent (d : ℤ) (c : String) (sid : ℕ) (r : Rng) :
    EngagementRecord × Rng :=
  let (sm, r1) := Rng.uniform 3 45 r
  let (qz, r2) := Rng.uniform 40 100 r1
  let (u, r3) := Rng.random r2
  ({ date := d, course := c, student_id := sid, session_minutes := sm,
     quiz_score := qz, completed := decide (u < 1 / 20) }, r3)

/-- One record per selected id, in sampling order (source lines 46–59). -/
def genStudents (d : ℤ) (c : String) :
    List ℕ → Rng → List EngagementRecord × Rng
  | [], r => ([], r)
  | sid :: rest, r =>
    let (e, r1) := genStudent d c sid r
    let (es, r2) := genStudents d c rest r1
    (e :: es, r2)

/-- The body of the date × course loop (source lines 43–59): draw an active
count from `[10, students // 3)`, then that many distinct student ids, then
one record per id.  `none` models the numpy `ValueError` on an empty range. -/
def genPair (students : ℕ) (d : ℤ) (c : String) (r : Rng) :
    Option (List EngagementRecord × Rng) :=
  match Rng.integers 10 (students / 3) r with
  | none => none
  | some (active, r1) =>
    match Rng.choice students active r1 with
    | none => none
    | some (ids, r2) => some (genStudents d c ids r2)

/-- The course inner loop of `load_dummy_data` for one date. -/
def genCourses (students : ℕ) (d : ℤ) :
    List String → Rng → Option (List EngagementRecord × Rng)
  | [], r => some ([], r)
  | c :: cs, r =>
    match genPair students d c r with
    | none => none
    | some (es, r1) =>
      match genCourses students d cs r1 with
      | none => none
      | some (more, r2) => some (es ++ more, r2)

/-- The date outer loop of `load_dummy_data`. -/
def genDates (students : ℕ) (cs : List String) :
    List ℤ → Rng → Option (List EngagementRecord × Rng)
  | [], r => some ([], r)
  | d :: ds, r =>
    match genCourses students d cs r with
    | none => none
    | some (es, r1) =>
      match genDates students cs ds r1 with
      | none => none
      | some (more, r2) => some (es ++ more, r2)

/-- Generation with the generator seed made explicit (the source
hard-codes `np.random.default_rng(42)`); `today` is `dt.date.today()`.
`none` models a raised exception during generation. -/
def load_dummy_data_seeded (seed days courses students : ℕ) (today : ℤ) :
    Option (List EngagementRecord) :=
  match genDates students (courseList courses) (dateList days today)
      (rngInit seed) with
  | none => none
  | some (es, _) => some es

/-- The generator `load_dummy_data(days, courses, students)` (source lines 22–61). -/
def load_dummy_data (days courses students : ℕ) (today : ℤ) :
    Option (List EngagementRecord) :=
  load_dummy_data_seeded 42 days courses students today

/-- The filter step (source lines 87–89): date mask first, then — only when
the course selection is non-empty, per Python truthiness of the list — the
course membership mask. -/
def filterTable (t : List EngagementRecord) (fromD toD : ℤ)
    (sel : List String) : List EngagementRecord :=
  let byDate := t.filter (fun r => decide (fromD ≤ r.date ∧ r.date ≤ toD))
  if sel.isEmpty then byDate
  else byDate.filter (fun r => sel.contains r.course)

/-- The `from_date > to_date` check of source line 80: `true` when the
sidebar error (a non-fatal warning) is shown. -/
def invalidRangeWarning (fromD toD : ℤ) : Bool :=
  decide (fromD > toD)

/-- Mean of a list of rationals; `none` models pandas' `NaN` on an empty
series. -/
def meanQ (l : List ℚ) : Option ℚ :=
  if l.isEmpty then none else some (l.sum / (l.length : ℚ))

/-- Median of a list of rationals, as pandas computes it (sort; middle
element, or mean of the two middle elements); `none` models `NaN` on an
empty series. -/
def medianQ (l : List ℚ) : Option ℚ :=
  if l.isEmpty then none
  else
    let s := l.mergeSort (fun a b => decide (a ≤ b))
    let n := s.length
    if n % 2 = 1 then some (s.getD (n / 2) 0)
    else some ((s.getD (n / 2 - 1) 0 + s.getD (n / 2) 0) / 2)

/-- KPI `filtered["student_id"].nunique()` (source line 98). -/
def active_users (t : List EngagementRecord) : ℕ :=
  (t.map (fun r => r.student_id)).dedup.length

/-- KPI `filtered["session_minutes"].median()` (source line 101); `none` is
pandas' `NaN` on the empty table. -/
def median_session (t : List EngagementRecord) : Option ℚ :=
  medianQ (t.map (fun r => r.session_minutes))

/-- KPI `filtered["completed"].mean() * 100 if not filtered.empty else 0`
(source line 104). -/
def completion_rate (t : List EngagementRecord) : ℚ :=
  if t.isEmpty then 0
  else ((t.filter (fun r => r.completed)).length : ℚ) / (t.length : ℚ) * 100

/-- KPI `filtered["quiz_score"].mean()` (source line 107); `none` is pandas'
`NaN` on the empty table. -/
def mean_quiz (t : List EngagementRecord) : Option ℚ :=
  meanQ (t.map (fun r => r.quiz_score))

/-- The bin edges `[0, 5, 10, 20, 30, 60]` of source line 137, as the
half-open intervals `pd.cut` derives from them. -/
def sessionBins : List (ℚ × ℚ) := [(0, 5), (5, 10), (10, 20), (20, 30), (30, 60)]

/-- Model of `pd.cut(m, bins=[0,5,10,20,30,60])` for a single value: the first (hence,
by disjointness, the unique) interval `(lo, hi]` containing `m`, `none` when
`m` falls outside every bin. -/
def sessionBucket (m : ℚ) : Option (ℚ × ℚ) :=
  sessionBins.find? (fun b => decide (b.1 < m ∧ m ≤ b.2))

/-- The heat-map aggregate (source lines 138–142): group the filtered rows by
their `session_bucket` category — category order, observed groups only, rows
with a `NaN` bucket dropped — and take the mean quiz score of each group. -/
def quizBySessionBucket (t : List EngagementRecord) :
    List ((ℚ × ℚ) × ℚ) :=
  sessionBins.filterMap (fun b =>
    let g := t.filter (fun r => sessionBucket r.session_minutes = some b)
    if g.isEmpty then none
    else some (b, (g.map (fun r => r.quiz_score)).sum / (g.length : ℚ)))

/-- The same aggregate as the specification words it: partition
`session_minutes` into the bucket edges `(0,5], (5,10], (10,20], (20,30],
(30,60]`; for each non-empty bucket report the mean `quiz_score` of the rows
falling in it; a bucket with no rows is omitted. -/
def quizBySessionBucketSpec (t : List EngagementRecord) :
    List ((ℚ × ℚ) × ℚ) :=
  [((0 : ℚ), (5 : ℚ)), (5, 10), (10, 20), (20, 30), (30, 60)].filterMap
    (fun b =>
      let g := t.filter (fun r => decide (b.1 < r.session_minutes ∧
        r.session_minutes ≤ b.2))
      if g.isEmpty then none
      else some (b, (g.map (fun r => r.quiz_score)).sum / (g.length : ℚ)))

/-- The daily-active-users aggregate (source lines 117–122): group by date,
count distinct student ids, sorted ascending by date. -/
def active_daily (t : List EngagementRecord) : List (ℤ × ℕ) :=
  ((t.map (fun r => r.date)).dedup.mergeSort (fun a b => decide (a ≤ b))).map
    (fun d => (d, active_users (t.filter (fun r => r.date = d))))

/-- Everything one interaction renders, plus the base table as it stands
after the pass. -/
structure DashboardView where
  data : List EngagementRecord
  filtered : List (EngagementRecord × Option (ℚ × ℚ))
  dau : ℕ
  medianSession : Option ℚ
  completionRate : ℚ
  meanQuiz : Option ℚ
  activeDaily : List (ℤ × ℕ)
  heat : List ((ℚ × ℚ) × ℚ)

/-- One full recomputation pass (source lines 87–143): filter, compute the
four KPIs and the grouped aggregates, and attach the `session_bucket` column
to (a copy of) the filtered table — pandas boolean-mask indexing returns a
copy, so the column assignment of line 137 builds a new table value. -/
def runDashboard (data : List EngagementRecord) (fromD toD : ℤ)
    (sel : List String) : DashboardView :=
  let filtered := filterTable data fromD toD sel
  { data := data
    filtered := filtered.map (fun r => (r, sessionBucket r.session_minutes))
    dau := active_users filtered
    medianSession := median_session filtered
    completionRate := completion_rate filtered
    meanQuiz := mean_quiz filtered
    activeDaily := active_daily filtered
    heat := quizBySessionBucket filtered }

/-! ## Lemmas about the filter step -/

lemma filterTable_eq_filter (t : List EngagementRecord) (fromD toD : ℤ)
    (sel : List String) :
    filterTable t fromD toD sel =
      t.filter (fun r => decide ((fromD ≤ r.date ∧ r.date ≤ toD) ∧
        (sel = [] ∨ r.course ∈ sel))) := by
  unfold filterTable
  by_cases h : sel.isEmpty
  · rw [if_pos h]
    refine List.filter_congr ?_
    intro r _
    have hnil : sel = [] := List.isEmpty_iff.mp h
    simp [hnil]
  · rw [if_neg h]
    rw [List.filter_filter]
    refine List.filter_congr ?_
    intro r _
    have hne : sel ≠ [] := fun hs => h (List.isEmpty_iff.mpr hs)
    by_cases hd : fromD ≤ r.date ∧ r.date ≤ toD <;>
      by_cases hc : r.course ∈ sel <;>
      simp [hd, hc, hne]

/-- C4: the filter keeps exactly the rows whose date lies in the inclusive
range `[from_date, to_date]` and whose course is in `selected_courses`,
except that an empty selection keeps all rows regardless of course. -/
theorem filter_keeps_exactly_matching_rows (t : List EngagementRecord)
    (fromD toD : ℤ) (sel : List String) :
    filterTable t fromD toD sel =
      t.filter (fun r => decide ((fromD ≤ r.date ∧ r.date ≤ toD) ∧
        (sel = [] ∨ r.course ∈ sel))) :=
  filterTable_eq_filter t fromD toD sel

/-- C9: filtering is idempotent — applying the filter with fixed criteria to
an already-filtered table returns the same table. -/
theorem filter_idempotent (t : List EngagementRecord) (fromD toD : ℤ)
    (sel : List String) :
    filterTable (filterTable t fromD toD sel) fromD toD sel =
      filterTable t fromD toD sel := by
  rw [filterTable_eq_filter t, filterTable_eq_filter, List.filter_filter]
  refine List.filter_congr ?_
  intro r _
  by_cases hd : (fromD ≤ r.date ∧ r.date ≤ toD) ∧ (sel = [] ∨ r.course ∈ sel) <;>
    simp [hd]

/-- C7: an inverted range `from_date > to_date` raises no exception — the
warning flag is set, the filter still runs, and its result is empty. -/
theorem inverted_range_warns_and_filters_to_empty
    (t : List EngagementRecord) (fromD toD : ℤ) (sel : List String)
    (h : fromD > toD) :
    invalidRangeWarning fromD toD = true ∧ filterTable t fromD toD sel = [] := by
  refine ⟨by simpa [invalidRangeWarning] using h, ?_⟩
  rw [filterTable_eq_filter]
  rw [List.filter_eq_nil_iff]
  intro r _
  simp only [decide_eq_true_eq, not_and]
  rintro ⟨h1, h2⟩
  omega

/-- A sample row used by concrete witnesses. -/
def sampleRecord : EngagementRecord where
  date := 3
  course := "Course‑1"
  student_id := 0
  session_minutes := 10
  quiz_score := 50
  completed := false

/-- Witness for C7 at a concrete inverted range. -/
theorem inverted_range_warns_and_filters_to_empty_witness :
    invalidRangeWarning 5 2 = true ∧ filterTable [sampleRecord] 5 2 [] = [] :=
  inverted_range_warns_and_filters_to_empty [sampleRecord] 5 2 [] (by norm_num)

/-! ## Empty-table aggregation (C2) -/

/-- C2 counterexample: on the empty filtered table, the median session
length and the mean quiz score evaluate to pandas `NaN` (modelled `none`),
contradicting the claim that no metric produces a NaN or undefined value. -/
theorem empty_aggregate_median_mean_are_nan :
    median_session [] = none ∧ mean_quiz [] = none :=
  ⟨rfl, rfl⟩

/-- C2 amended: on the empty filtered table aggregation raises no fault;
`active_users` is `0` and `completion_rate_pct` is `0` (the code's explicit
guard), while the median session length and mean quiz score are pandas `NaN`
("no data"), not numbers. -/
theorem empty_aggregate_values :
    active_users [] = 0 ∧ completion_rate [] = 0 ∧
      median_session [] = none ∧ mean_quiz [] = none :=
  ⟨rfl, rfl, rfl, rfl⟩

/-! ## Frame property of one interaction pass (C10) -/

/-- C10: a full filter + aggregate pass — including attaching the
`session_bucket` column — leaves the base dataset unchanged, and the bucket
column is attached to a copy: stripping it recovers exactly the filtered
table. -/
theorem dashboard_pass_preserves_base (data : List EngagementRecord)
    (fromD toD : ℤ) (sel : List String) :
    (runDashboard data fromD toD sel).data = data ∧
      (runDashboard data fromD toD sel).filtered.map Prod.fst =
        filterTable data fromD toD sel := by
  constructor
  · rfl
  · simp [runDashboard, Function.comp_def]

/-! ## Determinism of the generator (C1) -/

/-- C1 counterexample: two runs with identical parameters
`(days, courses, students)` and the same (hard-coded) seed, but started on
different calendar days, return different tables — the generator also
depends on `dt.date.today()`, so it is not a pure function of parameters
and seed alone. -/
theorem generator_depends_on_today :
    load_dummy_data 1 1 33 0 ≠ load_dummy_data 1 1 33 1 := by decide

/-- C1 amended: the generator is a pure function of its parameters, the
seed, and the current calendar day — two calls with identical parameters,
the same seed and the same value of `dt.date.today()` return identical
tables (same rows in the same order). -/
theorem generator_deterministic (seed days courses students : ℕ)
    (today : ℤ) (seed' days' courses' students' : ℕ) (today' : ℤ)
    (hseed : seed = seed') (hdays : days = days')
    (hcourses : courses = courses') (hstudents : students = students')
    (htoday : today = today') :
    load_dummy_data_seeded seed days courses students today =
      load_dummy_data_seeded seed' days' courses' students' today' := by
  subst hseed hdays hcourses hstudents htoday
  rfl

/-- Witness for C1's amended determinism at the spec's reference call
`generate(90, 5, 400, seed=42)` — parameters only; both calls on day 0. -/
theorem generator_deterministic_witness :
    load_dummy_data_seeded 42 1 2 33 0 = load_dummy_data_seeded 42 1 2 33 0 :=
  generator_deterministic 42 1 2 33 0 42 1 2 33 0 rfl rfl rfl rfl rfl

/-! ## Success of the active-count sampling (C3) -/

lemma genPair_isSome (students : ℕ) (d : ℤ) (c : String) (r : Rng)
    (h : 10 < students / 3) : (genPair students d c r).isSome = true := by
  rcases hnext : r.next with ⟨x, r1⟩
  have hle : 10 + x % (students / 3 - 10) ≤ students := by
    have hx : x % (students / 3 - 10) < students / 3 - 10 :=
      Nat.mod_lt _ (by omega)
    have hd : students / 3 ≤ students := Nat.div_le_self _ _
    omega
  simp [genPair, Rng.integers, Rng.choice, hnext, h, hle]

lemma genCourses_isSome (students : ℕ) (h : 10 < students / 3) :
    ∀ (cs : List String) (d : ℤ) (r : Rng),
      (genCourses students d cs r).isSome = true
  | [], _, _ => rfl
  | c :: cs, d, r => by
    have h1 := genPair_isSome students d c r h
    rcases hp : genPair students d c r with _ | ⟨es, r1⟩
    · rw [hp] at h1; exact absurd h1 (by simp)
    · have h2 := genCourses_isSome students h cs d r1
      rcases hc : genCourses students d cs r1 with _ | ⟨more, r2⟩
      · rw [hc] at h2; exact absurd h2 (by simp)
      · simp [genCourses, hp, hc]

lemma genDates_isSome (students : ℕ) (cs : List String)
    (h : 10 < students / 3) :
    ∀ (ds : List ℤ) (r : Rng), (genDates students cs ds r).isSome = true
  | [], _ => rfl
  | d :: ds, r => by
    have h1 := genCourses_isSome students h cs d r
    rcases hp : genCourses students d cs r with _ | ⟨es, r1⟩
    · rw [hp] at h1; exact absurd h1 (by simp)
    · have h2 := genDates_isSome students cs h ds r1
      rcases hc : genDates students cs ds r1 with _ | ⟨more, r2⟩
      · rw [hc] at h2; exact absurd h2 (by simp)
      · simp [genDates, hp, hc]

/-- C3 counterexample: the claimed preconditions hold at
`days = 1, courses = 1, students = 3`, yet generation hits the empty-range
sampling failure (`rng.integers(10, 3 // 3)` raises, modelled `none`):
`students // 3 ≥ 1` does not make the range `[10, students // 3)`
non-empty. -/
theorem generator_empty_range_at_students_three :
    (1 ≤ 1 ∧ 1 ≤ 1 ∧ 3 ≤ 3) ∧ load_dummy_data 1 1 3 0 = none :=
  ⟨⟨le_refl 1, le_refl 1, le_refl 3⟩, rfl⟩

/-- C3 amended: the active-count range `[10, students // 3)` is non-empty
precisely when `students // 3 > 10`, i.e. `students ≥ 33`; under
`students ≥ 33` (any `days`, `courses`) the generator never hits the
empty-range sampling failure. -/
theorem generator_succeeds_of_students_ge_33
    (days courses students : ℕ) (today : ℤ) (h : 33 ≤ students) :
    (load_dummy_data days courses students today).isSome = true := by
  have h3 : 10 < students / 3 := by
    have h11 : (33 : ℕ) / 3 ≤ students / 3 := Nat.div_le_div_right h
    omega
  unfold load_dummy_data load_dummy_data_seeded
  have h1 := genDates_isSome students (courseList courses) h3
    (dateList days today) (rngInit 42)
  rcases hd : genDates students (courseList courses) (dateList days today)
      (rngInit 42) with _ | ⟨es, r⟩
  · rw [hd] at h1; exact absurd h1 (by simp)
  · simp [hd]

/-- Witness for C3's amended theorem at `students = 33`. -/
theorem generator_succeeds_of_students_ge_33_witness :
    (load_dummy_data 1 1 33 0).isSome = true :=
  generator_succeeds_of_students_ge_33 1 1 33 0 (by norm_num)

/-! ## Session buckets (C8) -/

lemma sessionBucket_eq_some_iff (m : ℚ) (b : ℚ × ℚ) :
    sessionBucket m = some b ↔ b ∈ sessionBins ∧ b.1 < m ∧ m ≤ b.2 := by
  constructor
  · intro h
    refine ⟨List.mem_of_find?_eq_some h, ?_⟩
    have hp := List.find?_some h
    simpa using hp
  · rintro ⟨hb, h1, h2⟩
    simp only [sessionBins, List.mem_cons, List.not_mem_nil, or_false] at hb
    unfold sessionBucket sessionBins
    rcases hb with hb | hb | hb | hb | hb <;> subst hb <;>
        simp only [Prod.fst, Prod.snd] at h1 h2
    · simp [h1, h2]
    · have k1 : ¬ m ≤ 5 := by linarith
      simp [h1, h2, k1]
    · have k1 : ¬ m ≤ 5 := by linarith
      have k2 : ¬ m ≤ 10 := by linarith
      simp [h1, h2, k1, k2]
    · have k1 : ¬ m ≤ 5 := by linarith
      have k2 : ¬ m ≤ 10 := by linarith
      have k3 : ¬ m ≤ 20 := by linarith
      simp [h1, h2, k1, k2, k3]
    · have k1 : ¬ m ≤ 5 := by linarith
      have k2 : ¬ m ≤ 10 := by linarith
      have k3 : ¬ m ≤ 20 := by linarith
      have k4 : ¬ m ≤ 30 := by linarith
      simp [h1, h2, k1, k2, k3, k4]

/-- C8: the heat-map aggregate equals the specification's description —
partition `session_minutes` into the half-open buckets
`(0,5], (5,10], (10,20], (20,30], (30,60]`, report for each non-empty
bucket the mean `quiz_score` of the rows falling in it, and omit every
bucket with no rows. -/
theorem quiz_by_session_bucket_correct (t : List EngagementRecord) :
    quizBySessionBucket t = quizBySessionBucketSpec t := by
  unfold quizBySessionBucket quizBySessionBucketSpec sessionBins
  refine List.filterMap_congr ?_
  intro b hb
  have hbins : b ∈ sessionBins := by
    simpa [sessionBins] using hb
  have hfilter :
      t.filter (fun r => decide (sessionBucket r.session_minutes = some b)) =
        t.filter (fun r => decide (b.1 < r.session_minutes ∧
          r.session_minutes ≤ b.2)) := by
    refine List.filter_congr ?_
    intro r _
    by_cases hm : b.1 < r.session_minutes ∧ r.session_minutes ≤ b.2
    · simp [(sessionBucket_eq_some_iff _ _).mpr ⟨hbins, hm.1, hm.2⟩, hm]
    · have hnb : ¬ sessionBucket r.session_minutes = some b := fun hc =>
        hm ((sessionBucket_eq_some_iff _ _).mp hc).2
      simp [hnb, hm]
  simp only [hfilter]

/-! ## Bounds and distinctness of the random draws (C5, C6) -/

lemma uniform_bounds (a b : ℚ) (h : a < b) (r : Rng) :
    a ≤ (Rng.uniform a b r).1 ∧ (Rng.uniform a b r).1 < b := by
  rcases hnext : r.next with ⟨x, r1⟩
  have huv : Rng.uniform a b r =
      (a + (b - a) * ((x % rngDen : ℕ) : ℚ) / (rngDen : ℚ), r1) := by
    unfold Rng.uniform
    rw [hnext]
  have hden : (0 : ℚ) < (rngDen : ℚ) := by norm_num [rngDen]
  have hx0 : (0 : ℚ) ≤ ((x % rngDen : ℕ) : ℚ) := Nat.cast_nonneg _
  have hxlt : ((x % rngDen : ℕ) : ℚ) < (rngDen : ℚ) := by
    exact_mod_cast Nat.mod_lt _ (by norm_num [rngDen])
  have hfrac0 : (0 : ℚ) ≤ ((x % rngDen : ℕ) : ℚ) / (rngDen : ℚ) :=
    div_nonneg hx0 hden.le
  have hfrac1 : ((x % rngDen : ℕ) : ℚ) / (rngDen : ℚ) < 1 :=
    (div_lt_one hden).mpr hxlt
  have hba : (0 : ℚ) < b - a := by linarith
  rw [huv]
  constructor
  · simp only
    rw [mul_div_assoc]
    nlinarith [mul_nonneg hba.le hfrac0]
  · simp only
    rw [mul_div_assoc]
    nlinarith [mul_lt_mul_of_pos_left hfrac1 hba]

lemma pickDistinct_succ (k : ℕ) (pool : List ℕ) (r : Rng) :
    pickDistinct (k + 1) pool r =
      ((pool.getD ((r.next).1 % pool.length) 0) ::
          (pickDistinct k (pool.erase (pool.getD ((r.next).1 % pool.length) 0))
            (r.next).2).1,
        (pickDistinct k (pool.erase (pool.getD ((r.next).1 % pool.length) 0))
          (r.next).2).2) := rfl

lemma getD_mem_of_lt {l : List ℕ} {i : ℕ} (h : i < l.length) :
    l.getD i 0 ∈ l := by
  rw [List.getD_eq_getElem?_getD, List.getElem?_eq_getElem h]
  exact List.getElem_mem h

lemma pickDistinct_length : ∀ (k : ℕ) (pool : List ℕ) (r : Rng),
    (pickDistinct k pool r).1.length = k
  | 0, _, _ => rfl
  | Nat.succ k, pool, r => by
    rw [pickDistinct_succ]
    simp [pickDistinct_length k]

lemma pickDistinct_mem : ∀ (k : ℕ) (pool : List ℕ) (r : Rng),
    k ≤ pool.length → ∀ a ∈ (pickDistinct k pool r).1, a ∈ pool
  | 0, _, _, _, a, ha => absurd ha (List.not_mem_nil a)
  | Nat.succ k, pool, r, hk, a, ha => by
    rw [pickDistinct_succ] at ha
    have hpos : 0 < pool.length := by omega
    have hchosen : pool.getD ((r.next).1 % pool.length) 0 ∈ pool :=
      getD_mem_of_lt (Nat.mod_lt _ hpos)
    rcases List.mem_cons.mp ha with h | h
    · rw [h]; exact hchosen
    · have hk' : k ≤ (pool.erase (pool.getD ((r.next).1 % pool.length) 0)).length := by
        rw [List.length_erase_of_mem hchosen]; omega
      exact List.erase_subset _ _ (pickDistinct_mem k _ (r.next).2 hk' a h)

lemma pickDistinct_nodup : ∀ (k : ℕ) (pool : List ℕ) (r : Rng),
    pool.Nodup → k ≤ pool.length → (pickDistinct k pool r).1.Nodup
  | 0, _, _, _, _ => List.nodup_nil
  | Nat.succ k, pool, r, hnd, hk => by
    rw [pickDistinct_succ]
    have hpos : 0 < pool.length := by omega
    have hchosen : pool.getD ((r.next).1 % pool.length) 0 ∈ pool :=
      getD_mem_of_lt (Nat.mod_lt _ hpos)
    have hk' : k ≤ (pool.erase (pool.getD ((r.next).1 % pool.length) 0)).length := by
      rw [List.length_erase_of_mem hchosen]; omega
    refine List.nodup_cons.mpr ⟨?_, pickDistinct_nodup k _ (r.next).2 (hnd.erase _) hk'⟩
    intro hmem
    exact hnd.not_mem_erase (pickDistinct_mem k _ (r.next).2 hk' _ hmem)

lemma choice_sound {n k : ℕ} {r : Rng} {ids : List ℕ} {r' : Rng}
    (h : Rng.choice n k r = some (ids, r')) :
    ids.Nodup ∧ ids.length = k ∧ ∀ a ∈ ids, a < n := by
  unfold Rng.choice at h
  split at h
  · rename_i hkn
    have hids : ids = (pickDistinct k (List.range n) r).1 := by
      have := (Option.some.injEq _ _).mp h
      exact (congrArg Prod.fst this).symm
    have hlen : (List.range n).length = n := List.length_range n
    subst hids
    refine ⟨pickDistinct_nodup k _ r (List.nodup_range n) (by omega), ?_, ?_⟩
    · exact pickDistinct_length k _ r
    · intro a ha
      exact List.mem_range.mp (pickDistinct_mem k _ r (by omega) a ha)
  · exact absurd h (by simp)

/-- The identifying projection of a record: its `(date, course, student_id)`
triple. -/
def tripleOf (e : EngagementRecord) : ℤ × String × ℕ :=
  (e.date, e.course, e.student_id)

lemma genStudents_cons (d : ℤ) (c : String) (sid : ℕ) (rest : List ℕ)
    (r : Rng) :
    genStudents d c (sid :: rest) r =
      ((genStudent d c sid r).1 :: (genStudents d c rest (genStudent d c sid r).2).1,
        (genStudents d c rest (genStudent d c sid r).2).2) := rfl

lemma genStudents_triples (d : ℤ) (c : String) : ∀ (ids : List ℕ) (r : Rng),
    ((genStudents d c ids r).1).map tripleOf = ids.map (fun s => (d, c, s))
  | [], _ => rfl
  | sid :: rest, r => by
    rw [genStudents_cons]
    simp only [List.map_cons]
    rw [genStudents_triples d c rest]
    rfl

lemma genStudents_bounds (d : ℤ) (c : String) : ∀ (ids : List ℕ) (r : Rng),
    ∀ e ∈ (genStudents d c ids r).1,
      3 ≤ e.session_minutes ∧ e.session_minutes < 45 ∧
        40 ≤ e.quiz_score ∧ e.quiz_score < 100
  | [], _, e, he => absurd he (List.not_mem_nil e)
  | sid :: rest, r, e, he => by
    rw [genStudents_cons] at he
    rcases List.mem_cons.mp he with h | h
    · subst h
      have h1 := uniform_bounds 3 45 (by norm_num) r
      have h2 := uniform_bounds 40 100 (by norm_num) (Rng.uniform 3 45 r).2
      exact ⟨h1.1, h1.2, h2.1, h2.2⟩
    · exact genStudents_bounds d c rest _ e h

lemma genPair_sound {students : ℕ} {d : ℤ} {c : String} {r : Rng}
    {es : List EngagementRecord} {r' : Rng}
    (h : genPair students d c r = some (es, r')) :
    (∃ ids : List ℕ, ids.Nodup ∧ (∀ a ∈ ids, a < students) ∧
      es.map tripleOf = ids.map (fun s => (d, c, s))) ∧
    ∀ e ∈ es, 3 ≤ e.session_minutes ∧ e.session_minutes < 45 ∧
      40 ≤ e.quiz_score ∧ e.quiz_score < 100 := by
  unfold genPair at h
  split at h
  · exact absurd h (by simp)
  · rename_i active r1 heq1
    split at h
    · exact absurd h (by simp)
    · rename_i ids r2 heq2
      have hpair : genStudents d c ids r2 = (es, r') :=
        (Option.some.injEq _ _).mp h
      have hes : es = (genStudents d c ids r2).1 := by rw [hpair]
      obtain ⟨hnodup, _, hlt⟩ := choice_sound heq2
      subst hes
      exact ⟨⟨ids, hnodup, hlt, genStudents_triples d c ids r2⟩,
        genStudents_bounds d c ids r2⟩

lemma genPair_mem {students : ℕ} {d : ℤ} {c : String} {r : Rng}
    {es : List EngagementRecord} {r' : Rng}
    (h : genPair students d c r = some (es, r')) :
    ∀ e ∈ es, e.date = d ∧ e.course = c ∧ e.student_id < students := by
  intro e he
  obtain ⟨⟨ids, _, hlt, htr⟩, _⟩ := genPair_sound h
  have hmem : tripleOf e ∈ es.map tripleOf := List.mem_map_of_mem tripleOf he
  rw [htr] at hmem
  obtain ⟨s, hs, hval⟩ := List.mem_map.mp hmem
  have h1 : e.date = d := by
    have := congrArg Prod.fst hval
    simpa [tripleOf] using this.symm
  have h2 : e.course = c := by
    have := congrArg (fun p => p.2.1) hval
    simpa [tripleOf] using this.symm
  have h3 : e.student_id = s := by
    have := congrArg (fun p => p.2.2) hval
    simpa [tripleOf] using this.symm
  exact ⟨h1, h2, h3 ▸ hlt s hs⟩

lemma genPair_nodup {students : ℕ} {d : ℤ} {c : String} {r : Rng}
    {es : List EngagementRecord} {r' : Rng}
    (h : genPair students d c r = some (es, r')) :
    (es.map tripleOf).Nodup := by
  obtain ⟨⟨ids, hnodup, _, htr⟩, _⟩ := genPair_sound h
  rw [htr]
  refine hnodup.map ?_
  intro a b hab
  simpa using hab

lemma genCourses_mem (students : ℕ) (d : ℤ) : ∀ (cs : List String) (r : Rng)
    (es : List EngagementRecord) (r' : Rng),
    genCourses students d cs r = some (es, r') →
    ∀ e ∈ es, e.date = d ∧ e.course ∈ cs ∧ e.student_id < students ∧
      3 ≤ e.session_minutes ∧ e.session_minutes < 45 ∧
      40 ≤ e.quiz_score ∧ e.quiz_score < 100
  | [], r, es, r', h, e, he => by
    have heq := (Option.some.injEq _ _).mp h
    have hes : es = [] := (congrArg Prod.fst heq).symm
    subst hes
    exact absurd he (List.not_mem_nil e)
  | c :: cs, r, es, r', h, e, he => by
    simp only [genCourses] at h
    split at h
    · exact absurd h (by simp)
    · rename_i es1 r1 heq1
      split at h
      · exact absurd h (by simp)
      · rename_i more r2 heq2
        have heq := (Option.some.injEq _ _).mp h
        have hes : es = es1 ++ more := (congrArg Prod.fst heq).symm
        subst hes
        rcases List.mem_append.mp he with hm | hm
        · obtain ⟨h1, h2, h3⟩ := genPair_mem heq1 e hm
          obtain ⟨_, hb⟩ := genPair_sound heq1
          obtain ⟨hb1, hb2, hb3, hb4⟩ := hb e hm
          exact ⟨h1, by simp [h2], h3, hb1, hb2, hb3, hb4⟩
        · obtain ⟨h1, h2, h3, hb1, hb2, hb3, hb4⟩ :=
            genCourses_mem students d cs r1 more r2 heq2 e hm
          exact ⟨h1, List.mem_cons_of_mem c h2, h3, hb1, hb2, hb3, hb4⟩

lemma genCourses_nodup (students : ℕ) (d : ℤ) : ∀ (cs : List String) (r : Rng)
    (es : List EngagementRecord) (r' : Rng),
    genCourses students d cs r = some (es, r') → cs.Nodup →
    (es.map tripleOf).Nodup
  | [], r, es, r', h, _ => by
    have heq := (Option.some.injEq _ _).mp h
    have hes : es = [] := (congrArg Prod.fst heq).symm
    subst hes
    exact List.nodup_nil
  | c :: cs, r, es, r', h, hnd => by
    simp only [genCourses] at h
    split at h
    · exact absurd h (by simp)
    · rename_i es1 r1 heq1
      split at h
      · exact absurd h (by simp)
      · rename_i more r2 heq2
        have heq := (Option.some.injEq _ _).mp h
        have hes : es = es1 ++ more := (congrArg Prod.fst heq).symm
        subst hes
        rw [List.map_append]
        refine List.Nodup.append (genPair_nodup heq1)
          (genCourses_nodup students d cs r1 more r2 heq2 hnd.of_cons) ?_
        intro t ht1 ht2
        obtain ⟨e1, he1, rfl⟩ := List.mem_map.mp ht1
        obtain ⟨e2, he2, hteq⟩ := List.mem_map.mp ht2
        have hc1 : e1.course = c := (genPair_mem heq1 e1 he1).2.1
        have hc2 : e2.course ∈ cs :=
          (genCourses_mem students d cs r1 more r2 heq2 e2 he2).2.1
        have hcc : e2.course = e1.course := congrArg (fun p => p.2.1) hteq
        have hcnotin : c ∉ cs := (List.nodup_cons.mp hnd).1
        exact hcnotin (hc1 ▸ hcc ▸ hc2)

lemma genDates_mem (students : ℕ) (cs : List String) : ∀ (ds : List ℤ)
    (r : Rng) (es : List EngagementRecord) (r' : Rng),
    genDates students cs ds r = some (es, r') →
    ∀ e ∈ es, e.date ∈ ds ∧ e.course ∈ cs ∧ e.student_id < students ∧
      3 ≤ e.session_minutes ∧ e.session_minutes < 45 ∧
      40 ≤ e.quiz_score ∧ e.quiz_score < 100
  | [], r, es, r', h, e, he => by
    have heq := (Option.some.injEq _ _).mp h
    have hes : es = [] := (congrArg Prod.fst heq).symm
    subst hes
    exact absurd he (List.not_mem_nil e)
  | d :: ds, r, es, r', h, e, he => by
    simp only [genDates] at h
    split at h
    · exact absurd h (by simp)
    · rename_i es1 r1 heq1
      split at h
      · exact absurd h (by simp)
      · rename_i more r2 heq2
        have heq := (Option.some.injEq _ _).mp h
        have hes : es = es1 ++ more := (congrArg Prod.fst heq).symm
        subst hes
        rcases List.mem_append.mp he with hm | hm
        · obtain ⟨h1, h2, h3, hb1, hb2, hb3, hb4⟩ :=
            genCourses_mem students d cs r es1 r1 heq1 e hm
          exact ⟨by simp [h1], h2, h3, hb1, hb2, hb3, hb4⟩
        · obtain ⟨h1, h2, h3, hb1, hb2, hb3, hb4⟩ :=
            genDates_mem students cs ds r1 more r2 heq2 e hm
          exact ⟨List.mem_cons_of_mem d h1, h2, h3, hb1, hb2, hb3, hb4⟩

lemma genDates_nodup (students : ℕ) (cs : List String) : ∀ (ds : List ℤ)
    (r : Rng) (es : List EngagementRecord) (r' : Rng),
    genDates students cs ds r = some (es, r') → ds.Nodup → cs.Nodup →
    (es.map tripleOf).Nodup
  | [], r, es, r', h, _, _ => by
    have heq := (Option.some.injEq _ _).mp h
    have hes : es = [] := (congrArg Prod.fst heq).symm
    subst hes
    exact List.nodup_nil
  | d :: ds, r, es, r', h, hndd, hndc => by
    simp only [genDates] at h
    split at h
    · exact absurd h (by simp)
    · rename_i es1 r1 heq1
      split at h
      · exact absurd h (by simp)
      · rename_i more r2 heq2
        have heq := (Option.some.injEq _ _).mp h
        have hes : es = es1 ++ more := (congrArg Prod.fst heq).symm
        subst hes
        rw [List.map_append]
        refine List.Nodup.append (genCourses_nodup students d cs r es1 r1 heq1 hndc)
          (genDates_nodup students cs ds r1 more r2 heq2 hndd.of_cons hndc) ?_
        intro t ht1 ht2
        obtain ⟨e1, he1, rfl⟩ := List.mem_map.mp ht1
        obtain ⟨e2, he2, hteq⟩ := List.mem_map.mp ht2
        have hd1 : e1.date = d := (genCourses_mem students d cs r es1 r1 heq1 e1 he1).1
        have hd2 : e2.date ∈ ds :=
          (genDates_mem students cs ds r1 more r2 heq2 e2 he2).1
        have hdd : e2.date = e1.date := congrArg (fun p => p.1) hteq
        have hdnotin : d ∉ ds := (List.nodup_cons.mp hndd).1
        exact hdnotin (hd1 ▸ hdd ▸ hd2)

lemma digitChar_inj_lt :
    ∀ a < 10, ∀ b < 10, Nat.digitChar a = Nat.digitChar b → a = b := by decide

lemma mapDigitChar_inj : ∀ (l1 l2 : List ℕ), (∀ x ∈ l1, x < 10) →
    (∀ x ∈ l2, x < 10) → l1.map Nat.digitChar = l2.map Nat.digitChar → l1 = l2
  | [], [], _, _, _ => rfl
  | [], _ :: _, _, _, h => by simp at h
  | _ :: _, [], _, _, h => by simp at h
  | a :: l1, b :: l2, h1, h2, h => by
    simp only [List.map_cons, List.cons.injEq] at h
    have hab := digitChar_inj_lt a (h1 a (by simp)) b (h2 b (by simp)) h.1
    subst hab
    rw [mapDigitChar_inj l1 l2 (fun x hx => h1 x (by simp [hx]))
      (fun x hx => h2 x (by simp [hx])) h.2]

lemma natDecimal_inj {m n : ℕ} (hm : m ≠ 0) (hn : n ≠ 0)
    (h : natDecimal m = natDecimal n) : m = n := by
  unfold natDecimal at h
  rw [if_neg hm, if_neg hn] at h
  have hdata : ((Nat.digits 10 m).map Nat.digitChar).reverse =
      ((Nat.digits 10 n).map Nat.digitChar).reverse := congrArg String.data h
  have hmap : (Nat.digits 10 m).map Nat.digitChar =
      (Nat.digits 10 n).map Nat.digitChar :=
    List.reverse_injective hdata
  have hdig : Nat.digits 10 m = Nat.digits 10 n :=
    mapDigitChar_inj _ _ (fun x hx => Nat.digits_lt_base (by norm_num) hx)
      (fun x hx => Nat.digits_lt_base (by norm_num) hx) hmap
  have := congrArg (Nat.ofDigits 10) hdig
  rwa [Nat.ofDigits_digits, Nat.ofDigits_digits] at this

lemma courseList_nodup (courses : ℕ) : (courseList courses).Nodup := by
  unfold courseList
  refine List.Nodup.map ?_ (List.nodup_range courses)
  intro i j hij
  have hd : ("Course‑".data ++ (natDecimal (i + 1)).data) =
      ("Course‑".data ++ (natDecimal (j + 1)).data) := by
    have := congrArg String.data hij
    simpa [String.data_append] using this
  have hnd : natDecimal (i + 1) = natDecimal (j + 1) :=
    String.ext (List.append_cancel_left hd)
  have := natDecimal_inj (Nat.succ_ne_zero i) (Nat.succ_ne_zero j) hnd
  omega

lemma dateList_nodup (days : ℕ) (today : ℤ) : (dateList days today).Nodup := by
  have hinj : Function.Injective
      (fun i : ℕ => today - ((days : ℤ) - 1) + (i : ℤ)) := by
    intro i j hij
    simp only at hij
    omega
  exact List.Nodup.map hinj (List.nodup_range days)

lemma load_dummy_data_sound {days courses students : ℕ} {today : ℤ}
    {t : List EngagementRecord}
    (ht : load_dummy_data days courses students today = some t) :
    ∃ r' : Rng, genDates students (courseList courses) (dateList days today)
      (rngInit 42) = some (t, r') := by
  unfold load_dummy_data load_dummy_data_seeded at ht
  split at ht
  · exact absurd ht (by simp)
  · rename_i es r' heq
    have hes : es = t := (Option.some.injEq _ _).mp ht
    exact ⟨r', hes ▸ heq⟩

/-- C5: every generated record has `3 ≤ session_minutes < 45`,
`40 ≤ quiz_score < 100`, a date inside the requested contiguous day range,
a course from the generated course list, and a `student_id` in
`[0, students)`. -/
theorem generated_records_in_bounds (days courses students : ℕ) (today : ℤ)
    (t : List EngagementRecord)
    (ht : load_dummy_data days courses students today = some t) :
    ∀ e ∈ t, 3 ≤ e.session_minutes ∧ e.session_minutes < 45 ∧
      40 ≤ e.quiz_score ∧ e.quiz_score < 100 ∧
      e.date ∈ dateList days today ∧ e.course ∈ courseList courses ∧
      e.student_id < students := by
  obtain ⟨r', hgen⟩ := load_dummy_data_sound ht
  intro e he
  obtain ⟨h1, h2, h3, hb1, hb2, hb3, hb4⟩ :=
    genDates_mem students (courseList courses) (dateList days today)
      (rngInit 42) t r' hgen e he
  exact ⟨hb1, hb2, hb3, hb4, h1, h2, h3⟩

/-- C6: the generated table has no duplicate
`(date, course, student_id)` triples. -/
theorem generated_records_nodup_triples (days courses students : ℕ)
    (today : ℤ) (t : List EngagementRecord)
    (ht : load_dummy_data days courses students today = some t) :
    (t.map tripleOf).Nodup := by
  obtain ⟨r', hgen⟩ := load_dummy_data_sound ht
  exact genDates_nodup students (courseList courses) (dateList days today)
    (rngInit 42) t r' hgen (dateList_nodup days today)
    (courseList_nodup courses)

lemma headD_mem {α : Type} {l : List α} (d : α) (h : l ≠ []) :
    l.headD d ∈ l := by
  cases l with
  | nil => exact absurd rfl h
  | cons a t => exact List.mem_cons_self a t

/-- Witness for C5 on the first record of a concrete generated table. -/
theorem generated_records_in_bounds_witness :
    3 ≤ (((load_dummy_data 1 1 33 0).getD []).headD sampleRecord).session_minutes ∧
    (((load_dummy_data 1 1 33 0).getD []).headD sampleRecord).session_minutes < 45 ∧
    40 ≤ (((load_dummy_data 1 1 33 0).getD []).headD sampleRecord).quiz_score ∧
    (((load_dummy_data 1 1 33 0).getD []).headD sampleRecord).quiz_score < 100 ∧
    (((load_dummy_data 1 1 33 0).getD []).headD sampleRecord).date ∈ dateList 1 0 ∧
    (((load_dummy_data 1 1 33 0).getD []).headD sampleRecord).course ∈ courseList 1 ∧
    (((load_dummy_data 1 1 33 0).getD []).headD sampleRecord).student_id < 33 :=
  generated_records_in_bounds 1 1 33 0 ((load_dummy_data 1 1 33 0).getD [])
    (by rfl) (((load_dummy_data 1 1 33 0).getD []).headD sampleRecord)
    (headD_mem sampleRecord (by decide))

/-- Witness for C6 on a concrete generated table. -/
theorem generated_records_nodup_triples_witness :
    ((((load_dummy_data 1 1 33 0).getD []).map tripleOf)).Nodup :=
  generated_records_nodup_triples 1 1 33 0
    ((load_dummy_data 1 1 33 0).getD []) (by rfl)
